import Mathlib

/-!
Verification development for the iterative DNS resolution engine of the
CN-Assn2 repository (files custom_dns.py and c2.py), via a shallow
embedding of its resolution logic in Lean.

The network is modelled as a deterministic oracle from (query name,
server address) to an outcome: a timeout, or a reply whose bytes either
decode to a message or do not.  Wall-clock round-trip times are supplied
by the oracle as abstract natural numbers.  The unbounded `while True`
loop of `hierarchical_lookup` is embedded with an explicit fuel
parameter: a run that returns `outOfFuel` for every fuel value is a run
on which the Python loop never terminates.
-/

namespace CNAssn2

/-- A resource record as used by custom_dns.py: owner name, numeric
record type (1 = A, 2 = NS) and textual record data. -/
structure RR where
  rname : String
  rtype : Nat
  rdata : String
deriving DecidableEq

/-- A decoded DNS message: answer (`rr`), authority (`auth`) and
additional (`ar`) sections, mirroring dnslib's DNSRecord fields read by
custom_dns.py. -/
structure Msg where
  rr : List RR
  auth : List RR
  ar : List RR
deriving DecidableEq

/-- Outcome of one UDP exchange with a server: a timeout, or a reply
whose body is `some` decoded message, or `none` when the reply bytes
cannot be decoded (DNSRecord.parse would raise). -/
inductive NetResult where
  | timeout
  | reply (body : Option Msg) (rtt : Nat)
deriving DecidableEq

/-- The network oracle: maps (query name, server address) to the
outcome of sending that query to that server. -/
def Net : Type := String → String → NetResult

/-- The configured root server list of custom_dns.py. -/
def NAME_SERVERS : List String :=
  ["198.41.0.4", "199.9.14.201", "192.33.4.12"]

/-- One entry of the trace accumulated by hierarchical_lookup
(the dict appended to trace_info). -/
structure TraceEntry where
  step : Nat
  mode : String
  stage : String
  server : String
  rtt : Option Nat
  response : List String
deriving DecidableEq

/-- The trace dict appended when a server times out
(custom_dns.py lines 56-63). -/
def timeoutEntry (step : Nat) (server : String) : TraceEntry :=
  { step := step, mode := "Iterative", stage := "Timeout", server := server,
    rtt := none, response := ["No response (timeout)"] }

/-- Stage classification of custom_dns.py lines 72-77: "Root" when the
step counter is 1, else "TLD" when the reply has authority records and
no answer records, else "Authoritative". -/
def classifyStage (step : Nat) (m : Msg) : String :=
  if step = 1 then "Root"
  else if 0 < m.auth.length ∧ m.rr = [] then "TLD"
  else "Authoritative"

/-- The record summary line built at custom_dns.py line 84. -/
def describeRR (r : RR) : String :=
  r.rname ++ " -> " ++ toString r.rtype ++ " -> " ++ r.rdata

/-- The reply_summary list of custom_dns.py lines 80-86:
`parsed_reply.rr or parsed_reply.auth or []`, described record by
record, or the literal referral placeholder when both are empty. -/
def summarize (m : Msg) : List String :=
  let available := if m.rr ≠ [] then m.rr else if m.auth ≠ [] then m.auth else []
  if available ≠ [] then available.map describeRR
  else ["Referral or empty response"]

/-- The trace dict appended for a decoded reply
(custom_dns.py lines 88-95). -/
def replyEntry (step : Nat) (m : Msg) (server : String) (rtt : Nat) : TraceEntry :=
  { step := step, mode := "Iterative", stage := classifyStage step m,
    server := server, rtt := some rtt, response := summarize m }

/-- Glue extraction of custom_dns.py line 103: rdata of additional
records of type A. -/
def extractGlue (m : Msg) : List String :=
  (m.ar.filter (fun r => r.rtype == 1)).map (fun r => r.rdata)

/-- Nameserver-name extraction of custom_dns.py line 107: rdata of
authority records of type NS. -/
def extractNS (m : Msg) : List String :=
  (m.auth.filter (fun r => r.rtype == 2)).map (fun r => r.rdata)

/-- Address extraction from a final answer, custom_dns.py lines 118-120:
rdata of answer records of type A. -/
def extractAnswerA (m : Msg) : List String :=
  (m.rr.filter (fun r => r.rtype == 1)).map (fun r => r.rdata)

/-- How one resolution run ends.  `answered` is a successful return of
the final reply; `noServerResponded` is the break at line 66-67 when no
candidate replied; `noDelegationPath` covers the breaks at lines 108-109
and 122-123 when neither glue nor nameserver resolution produced a next
server set (in all three cases the Python function returns
final_response = None); `malformed` marks a DNSRecord.parse exception
escaping the function; `outOfFuel` is the model artifact marking a run
still going when the fuel is exhausted. -/
inductive RunResult where
  | answered (m : Msg)
  | noServerResponded
  | noDelegationPath
  | malformed
  | outOfFuel
deriving DecidableEq

/-- The inner for-loop of custom_dns.py lines 43-63: try each candidate
server in order; a timeout appends a Timeout trace entry and moves on,
the first reply (decodable or not) stops the scan. -/
def queryServers (env : Net) (name : String) (step : Nat) :
    List String → List TraceEntry × Option (Option Msg × Nat × String)
  | [] => ([], none)
  | s :: rest =>
    match env name s with
    | .reply body rtt => ([], some (body, rtt, s))
    | .timeout =>
      let r := queryServers env name step rest
      (timeoutEntry step s :: r.1, r.2)

/-- Result of chasing the glueless nameserver names at custom_dns.py
lines 111-120: either an exception/nontermination escaping from a nested
lookup (`abort`), or the collected next-server addresses together with
the nested trace entries extended onto the parent trace. -/
inductive GlueResult where
  | abort (r : RunResult)
  | ok (ips : List String) (t : List TraceEntry)
deriving DecidableEq

/-- The for-loop of custom_dns.py lines 112-120, parameterised by the
nested lookup `lk`: for each nameserver name in order, run a nested
lookup, extend the trace, and when it answered collect the A-record
addresses of its answer.  A nested lookup that raises (malformed) or
never terminates aborts the whole loop, as the exception or hang
propagates into the parent. -/
def resolveNamesAux (lk : String → RunResult × List TraceEntry) :
    List String → GlueResult
  | [] => .ok [] []
  | n :: rest =>
    match lk n with
    | (.malformed, _) => .abort .malformed
    | (.outOfFuel, _) => .abort .outOfFuel
    | (r, t) =>
      match resolveNamesAux lk rest with
      | .abort r2 => .abort r2
      | .ok ips ts =>
        .ok ((match r with
              | .answered m => extractAnswerA m
              | _ => []) ++ ips) (t ++ ts)

/-- The `while True` loop of hierarchical_lookup (custom_dns.py lines
36-125), with the step counter and current server list as parameters
and an explicit fuel bound standing in for the unbounded loop.  Each
iteration: scan the candidate servers (timeouts traced), fail with
`noServerResponded` when none replied, propagate a decode failure as
`malformed` (DNSRecord.parse at line 69 is outside any try/except, so
the exception discards the trace and escapes), append the reply's trace
entry, stop with the answer when the reply has answer records, and
otherwise continue with the glue addresses or with addresses obtained by
recursively resolving the authority section's nameserver names. -/
def runLoop (env : Net) : Nat → String → Nat → List String →
    RunResult × List TraceEntry
  | 0 => fun _ _ _ => (.outOfFuel, [])
  | fuel + 1 => fun name step active =>
    match queryServers env name step active with
    | (tTrace, none) => (.noServerResponded, tTrace)
    | (_, some (none, _, _)) => (.malformed, [])
    | (tTrace, some (some m, rtt, server)) =>
      let trace := tTrace ++ [replyEntry step m server rtt]
      if m.rr ≠ [] then (.answered m, trace)
      else
        let glue := extractGlue m
        if glue ≠ [] then
          match runLoop env fuel name (step + 1) glue with
          | (.malformed, _) => (.malformed, [])
          | (r, t) => (r, trace ++ t)
        else
          match resolveNamesAux (fun n => runLoop env fuel n 1 NAME_SERVERS)
              (extractNS m) with
          | .abort r => (r, [])
          | .ok ips nt =>
            if ips = [] then (.noDelegationPath, trace ++ nt)
            else
              match runLoop env fuel name (step + 1) ips with
              | (.malformed, _) => (.malformed, [])
              | (r, t) => (r, trace ++ nt ++ t)

/-- hierarchical_lookup of custom_dns.py: start the loop at step 1 with
the configured root servers.  The Python return value (response bytes,
trace, elapsed ms, target name) is modelled by the run result and the
trace; the wall-clock elapsed time and the echoed target name carry no
resolution logic. -/
def hierarchical_lookup (env : Net) (fuel : Nat) (name : String) :
    RunResult × List TraceEntry :=
  runLoop env fuel name 1 NAME_SERVERS

/-!
Embedding of the batch resolver of c2.py (step_by_step_lookup), which
owns the Resolution Cache.  Its messages are the dnspython views read by
the code: answer and additional sections of record sets, each with a
numeric rdtype and the list of its items' addresses.
-/

/-- A dnspython record set as read by c2.py: the set's rdtype and the
addresses of its items. -/
structure RRset where
  rdtype : Nat
  items : List String
deriving DecidableEq

/-- A dnspython response message as read by c2.py. -/
structure DnsMsg2 where
  answer : List RRset
  additional : List RRset
deriving DecidableEq

/-- Outcome of dns.query.udp in c2.py: any exception (timeout included)
is one failure case, otherwise a response with a round-trip time. -/
inductive UdpResult where
  | fail
  | reply (m : DnsMsg2) (rtt : Nat)
deriving DecidableEq

/-- Network oracle for c2.py: (hostname, server) to outcome. -/
def Net2 : Type := String → String → UdpResult

/-- The root server list of c2.py. -/
def PRIMARY_SERVERS : List String :=
  ["198.41.0.4", "199.9.14.201", "192.33.4.12"]

/-- The lines written by write_trace in c2.py, with the timestamp and
number formatting abstracted away: each constructor is one trace line
shape. -/
inductive LogLine where
  | cacheHit (host : String) (addrs : List String)
  | rootReferral (host server : String) (rtt : Nat)
  | rootFail (host server : String)
  | tldReferral (host server : String) (rtt : Nat)
  | tldFail (host server : String)
  | authAnswer (host server : String) (addrs : List String) (rtt : Nat)
  | authNoAnswer (host server : String) (rtt : Nat)
  | authFail (host : String) (server : Option String)
  | totalStored (host : String)
  | totalNoResponse (host : String)
deriving DecidableEq

/-- First address-type record set of a section, c2.py's
`for resource_record in ...: if resource_record.rdtype == A: ...`. -/
def firstARRset (sec : List RRset) : Option RRset :=
  sec.find? (fun r => r.rdtype == 1)

/-- Phase 1 of step_by_step_lookup (c2.py lines 45-67): try each root
server in order; a reply is logged, then the first A record set of the
additional section supplies the TLD server address (its items[0]; an
empty item list raises IndexError inside the try, which logs a FAIL line
and moves on); with no A record set the loop continues; exhausting all
roots yields no TLD server.  Returns (log lines, accumulated rtt,
optional TLD server). -/
def phase1 (env : Net2) (host : String) :
    List String → List LogLine × Nat × Option String
  | [] => ([], 0, none)
  | s :: rest =>
    match env host s with
    | .fail =>
      let r := phase1 env host rest
      (.rootFail host s :: r.1, r.2.1, r.2.2)
    | .reply m rtt =>
      match firstARRset m.additional with
      | some rs =>
        match rs.items.head? with
        | some a => ([.rootReferral host s rtt], rtt, some a)
        | none =>
          let r := phase1 env host rest
          (.rootReferral host s rtt :: .rootFail host s :: r.1,
            rtt + r.2.1, r.2.2)
      | none =>
        let r := phase1 env host rest
        (.rootReferral host s rtt :: r.1, rtt + r.2.1, r.2.2)

/-- Result of phase 2: an exception terminates the lookup with a MISS;
otherwise the optional authoritative server address found in the
additional section (it may be absent). -/
inductive Phase2Result where
  | failed (logs : List LogLine) (rtt : Nat)
  | ok (logs : List LogLine) (rtt : Nat) (authServer : Option String)
deriving DecidableEq

/-- Phase 2 of step_by_step_lookup (c2.py lines 70-87): query the TLD
server once; on exception return a failure; otherwise log the referral
and pick the first A record set's items[0] from the additional section
(an empty item list raises inside the try and becomes a failure; no A
record set leaves the authoritative server absent). -/
def phase2 (env : Net2) (host tld : String) : Phase2Result :=
  match env host tld with
  | .fail => .failed [.tldFail host tld] 0
  | .reply m rtt =>
    match firstARRset m.additional with
    | some rs =>
      match rs.items.head? with
      | some a => .ok [.tldReferral host tld rtt] rtt (some a)
      | none => .failed [.tldReferral host tld rtt, .tldFail host tld] rtt
    | none => .ok [.tldReferral host tld rtt] rtt none

/-- The list comprehension of c2.py line 98: all addresses of
address-type record sets of the answer section, in order. -/
def extractAall (answer : List RRset) : List String :=
  (answer.filter (fun r => r.rdtype == 1)).foldr (fun r acc => r.items ++ acc) []

/-- Phase 3 of step_by_step_lookup (c2.py lines 90-104): query the
authoritative server (querying an absent server raises, logged as a
failure); a reply with a non-empty answer section sets the resolved
address list (possibly empty when no record set is address-type), an
empty answer or an exception leaves it unset.  Exceptions here do not
return early. -/
def phase3 (env : Net2) (host : String) (auth : Option String) :
    List LogLine × Nat × Option (List String) :=
  match auth with
  | none => ([.authFail host none], 0, none)
  | some a =>
    match env host a with
    | .fail => ([.authFail host (some a)], 0, none)
    | .reply m rtt =>
      if m.answer ≠ [] then
        ([.authAnswer host a (extractAall m.answer) rtt], rtt,
          some (extractAall m.answer))
      else ([.authNoAnswer host a rtt], rtt, none)

/-- Association-list model of the domain_cache dict of c2.py; a fresh
binding is consed in front, and lookup takes the first match. -/
def cacheLookup (cache : List (String × List String)) (h : String) :
    Option (List String) :=
  (cache.find? (fun p => p.1 == h)).map (fun p => p.2)

/-- The full return of step_by_step_lookup, plus the cache it leaves
behind and the trace lines it wrote: resolved addresses (None versus a
list, as in Python), elapsed time (modelled as the accumulated
round-trip time; the cache-hit path returns 0 as the code does), and
the cache flag string. -/
structure LookupOut where
  addrs : Option (List String)
  elapsed : Nat
  cacheFlag : String
  cache : List (String × List String)
  logs : List LogLine
deriving DecidableEq

/-- step_by_step_lookup of c2.py (lines 29-113): a cache hit returns the
stored addresses with elapsed 0, flag HIT and a cache-hit trace line;
otherwise the three phases run in sequence and the result is cached
exactly when the resolved address list is non-empty (Python's
`if resolved_addresses:` is false for both None and []). -/
def step_by_step_lookup (env : Net2) (cache : List (String × List String))
    (host : String) : LookupOut :=
  match cacheLookup cache host with
  | some addrs =>
    { addrs := some addrs, elapsed := 0, cacheFlag := "HIT", cache := cache,
      logs := [.cacheHit host addrs] }
  | none =>
    match phase1 env host PRIMARY_SERVERS with
    | (l1, r1, none) =>
      { addrs := none, elapsed := r1, cacheFlag := "MISS", cache := cache,
        logs := l1 }
    | (l1, r1, some tld) =>
      match phase2 env host tld with
      | .failed l2 r2 =>
        { addrs := none, elapsed := r1 + r2, cacheFlag := "MISS",
          cache := cache, logs := l1 ++ l2 }
      | .ok l2 r2 authOpt =>
        match phase3 env host authOpt with
        | (l3, r3, resolved) =>
          match resolved with
          | some addrs =>
            if addrs ≠ [] then
              { addrs := some addrs, elapsed := r1 + r2 + r3,
                cacheFlag := "MISS", cache := (host, addrs) :: cache,
                logs := l1 ++ l2 ++ l3 ++ [.totalStored host] }
            else
              { addrs := some addrs, elapsed := r1 + r2 + r3,
                cacheFlag := "MISS", cache := cache,
                logs := l1 ++ l2 ++ l3 ++ [.totalNoResponse host] }
          | none =>
            { addrs := none, elapsed := r1 + r2 + r3, cacheFlag := "MISS",
              cache := cache, logs := l1 ++ l2 ++ l3 ++ [.totalNoResponse host] }

/-!
Wire Codec model.  The repository performs encoding and decoding through
the dnslib library (DNSRecord.parse, DNSRecord.question(...).pack()),
whose source is not part of the repository, so the codec is modelled
from the specification's contract: encodeQuery succeeds exactly for
well-formed names (labels of at most 63 bytes, total name of at most
255 bytes) and fails with InvalidName otherwise, and decoding an encoded
query reproduces the question name and type.  Bytes are natural numbers;
a name is its list of labels, each a list of bytes.  The byte layout
(length-prefixed labels closed by a distinguished end marker, then the
query type) is an abstraction: the specification fixes only the codec's
contract, not the packet format.
-/

/-- Marker byte closing the label sequence of an encoded name.  Label
length bytes are at most 63, so the marker is unambiguous. -/
def nameEndMarker : Nat := 64

/-- Length in bytes of a name on the wire: one length byte per label
plus the label bytes, plus the closing marker. -/
def wireNameLength (name : List (List Nat)) : Nat :=
  name.foldr (fun l acc => l.length + 1 + acc) 1

/-- Modelled from the spec: serialization of a name, label by label,
each preceded by its length byte, closed by the end marker. -/
def encodeName : List (List Nat) → List Nat
  | [] => [nameEndMarker]
  | l :: rest => (l.length :: l) ++ encodeName rest

/-- Failure of encodeQuery on an ill-formed name. -/
inductive EncodeError where
  | InvalidName
deriving DecidableEq

/-- Modelled from the spec: `encodeQuery(name, type) → bytes` of the
Wire Codec contract (spec section 4.1), not present under src/ (the
repository calls dnslib for it).  It succeeds for a well-formed name —
every label at most 63 bytes and total name at most 255 bytes — and
fails with InvalidName otherwise. -/
def encodeQuery (name : List (List Nat)) (qtype : Nat) :
    Except EncodeError (List Nat) :=
  if (∀ l ∈ name, l.length ≤ 63) ∧ wireNameLength name ≤ 255 then
    .ok (encodeName name ++ [qtype])
  else .error .InvalidName

/-- Failure of decode on an unparsable buffer. -/
inductive DecodeError where
  | MalformedMessage
deriving DecidableEq

/-- A decoded question: the name's labels and the query type. -/
structure Question where
  qname : List (List Nat)
  qtype : Nat
deriving DecidableEq

/-- Label-sequence reader with an explicit fuel bound (each step
consumes at least one byte, so a fuel of the buffer length suffices):
reads a length byte, then that many label bytes, until the end marker;
returns the labels and the remaining bytes, or nothing when the buffer
is truncated. -/
def decodeNameF : Nat → List Nat → Option (List (List Nat) × List Nat)
  | 0, _ => none
  | _, [] => none
  | fuel + 1, b :: rest =>
    if b = nameEndMarker then some ([], rest)
    else if b ≤ rest.length then
      match decodeNameF fuel (rest.drop b) with
      | none => none
      | some (labels, rem) => some (rest.take b :: labels, rem)
    else none

/-- Modelled from the spec: `decode(bytes) → Message` of the Wire Codec
contract (spec section 4.1), restricted to the question it must
reproduce; fails with MalformedMessage when the buffer is truncated or
has an unparsable label structure. -/
def decode (bytes : List Nat) : Except DecodeError Question :=
  match decodeNameF bytes.length bytes with
  | none => .error .MalformedMessage
  | some (labels, rem) =>
    match rem with
    | [t] => .ok { qname := labels, qtype := t }
    | _ => .error .MalformedMessage

/-!
Collector functions describing what the nameserver-chasing loop of
custom_dns.py lines 112-120 accumulates: the concatenation, over the
nameserver names in order, of each nested lookup's collected addresses
and of each nested lookup's trace.
-/

/-- Addresses collected from the nested lookups of each nameserver
name, in order: the A records of the answer when the nested lookup
answered, nothing otherwise. -/
def collectIps (lk : String → RunResult × List TraceEntry)
    (names : List String) : List String :=
  names.foldr (fun n acc =>
    (match (lk n).1 with
     | .answered m => extractAnswerA m
     | _ => []) ++ acc) []

/-- Concatenation of the nested lookups' traces, in nameserver-name
order. -/
def collectTrace (lk : String → RunResult × List TraceEntry)
    (names : List String) : List TraceEntry :=
  names.foldr (fun n acc => (lk n).2 ++ acc) []

/-!
Concrete messages and network oracles used by the closed witness and
counterexample theorems below.
-/

/-- A final answer carrying one A record. -/
def ansMsg : Msg :=
  { rr := [{ rname := "example.com.", rtype := 1, rdata := "93.184.216.34" }],
    auth := [], ar := [] }

/-- A referral with in-band glue: no answer records, one NS authority
record, one A additional record pointing at 6.6.6.6. -/
def refGlueMsg : Msg :=
  { rr := [],
    auth := [{ rname := "com.", rtype := 2, rdata := "ns1.tld." }],
    ar := [{ rname := "ns1.tld.", rtype := 1, rdata := "6.6.6.6" }] }

/-- A referral without glue: one NS authority record, empty additional
section. -/
def gluelessRefMsg : Msg :=
  { rr := [],
    auth := [{ rname := "com.", rtype := 2, rdata := "ns1.tld." }],
    ar := [] }

/-- Answer to the nested lookup of the nameserver name ns1.tld. -/
def nsAnsMsg : Msg :=
  { rr := [{ rname := "ns1.tld.", rtype := 1, rdata := "9.9.9.9" }],
    auth := [], ar := [] }

/-- A malicious responder that answers every query from every server
with the same referral back to itself (the glue address 6.6.6.6 replies
identically): the delegation chain never reaches an answer. -/
def loopEnv : Net := fun _ _ => .reply (some refGlueMsg) 1

/-- Every server times out. -/
def allTimeoutEnv : Net := fun _ _ => .timeout

/-- The first root server times out, the second returns a final
answer. -/
def timeoutThenAnswerEnv : Net := fun _ s =>
  if s = "198.41.0.4" then .timeout
  else if s = "199.9.14.201" then .reply (some ansMsg) 5
  else .timeout

/-- The first root server answers at once. -/
def answerFirstEnv : Net := fun _ s =>
  if s = "198.41.0.4" then .reply (some ansMsg) 5 else .timeout

/-- The first root server returns undecodable reply bytes; the second
root server would have returned a final answer. -/
def malformedFirstEnv : Net := fun _ s =>
  if s = "198.41.0.4" then .reply none 2
  else if s = "199.9.14.201" then .reply (some ansMsg) 7
  else .timeout

/-- Referral with glue from the first root server, then a final answer
from the glue address. -/
def glueRefEnv : Net := fun _ s =>
  if s = "198.41.0.4" then .reply (some refGlueMsg) 2
  else if s = "6.6.6.6" then .reply (some ansMsg) 3
  else .timeout

/-- Glueless referral from the first root server: the nameserver name
ns1.tld. must be resolved by a nested lookup (answered from the first
root server), after which the delegated server 9.9.9.9 answers. -/
def gluelessEnv : Net := fun n s =>
  if n = "ns1.tld." then .reply (some nsAnsMsg) 3
  else if s = "198.41.0.4" then .reply (some gluelessRefMsg) 4
  else if s = "9.9.9.9" then .reply (some ansMsg) 5
  else .timeout

/-- c2.py oracle: root refers to 1.1.1.1, the TLD server 1.1.1.1 refers
to 2.2.2.2, and the authoritative server 2.2.2.2 returns a non-empty
answer section holding a single non-address record set (rdtype 16), so
no address is extracted. -/
def txtAnswerEnv2 : Net2 := fun _ s =>
  if s = "198.41.0.4" then
    .reply { answer := [], additional := [{ rdtype := 1, items := ["1.1.1.1"] }] } 2
  else if s = "1.1.1.1" then
    .reply { answer := [], additional := [{ rdtype := 1, items := ["2.2.2.2"] }] } 3
  else if s = "2.2.2.2" then
    .reply { answer := [{ rdtype := 16, items := ["unexpected"] }], additional := [] } 4
  else .fail

/-- An authoritative c2.py reply whose answer section holds one
address record set. -/
def goodAuthMsg2 : DnsMsg2 :=
  { answer := [{ rdtype := 1, items := ["93.184.216.34"] }], additional := [] }

/-- c2.py oracle: same delegation chain, but the authoritative server
answers with an address record set. -/
def goodAnswerEnv2 : Net2 := fun _ s =>
  if s = "198.41.0.4" then
    .reply { answer := [], additional := [{ rdtype := 1, items := ["1.1.1.1"] }] } 2
  else if s = "1.1.1.1" then
    .reply { answer := [], additional := [{ rdtype := 1, items := ["2.2.2.2"] }] } 3
  else if s = "2.2.2.2" then
    .reply goodAuthMsg2 4
  else .fail

/-- A well-formed two-label name (bytes of "a" and "bc"). -/
def goodName : List (List Nat) := [[97], [98, 99]]

/-- A name with a 64-byte label, violating the label bound. -/
def badName : List (List Nat) := [List.replicate 64 97]

/-!
Helper lemmas about the server-scanning loop, the nameserver-chasing
loop and the stage classifier.
-/

theorem queryServers_all_timeout (env : Net) (name : String) (step : Nat) :
    ∀ active : List String, (∀ t ∈ active, env name t = .timeout) →
      queryServers env name step active = (active.map (timeoutEntry step), none) := by
  intro active h
  induction active with
  | nil => rfl
  | cons s rest ih =>
    have hs := h s (by simp)
    have hrest : ∀ t ∈ rest, env name t = .timeout := fun t ht => h t (by simp [ht])
    simp [queryServers, hs, ih hrest]

theorem queryServers_split (env : Net) (name : String) (step : Nat)
    (s : String) (post : List String) (body : Option Msg) (rtt : Nat) :
    ∀ pre : List String, (∀ t ∈ pre, env name t = .timeout) →
      env name s = .reply body rtt →
      queryServers env name step (pre ++ s :: post) =
        (pre.map (timeoutEntry step), some (body, rtt, s)) := by
  intro pre h hs
  induction pre with
  | nil => simp [queryServers, hs]
  | cons p rest ih =>
    have hp := h p (by simp)
    have hrest : ∀ t ∈ rest, env name t = .timeout := fun t ht => h t (by simp [ht])
    simp [queryServers, hp, ih hrest]

theorem queryServers_found (env : Net) (name : String) (step : Nat) :
    ∀ (active : List String) (body : Option Msg) (rtt : Nat) (s : String),
      (queryServers env name step active).2 = some (body, rtt, s) →
      env name s = .reply body rtt ∧ s ∈ active := by
  intro active
  induction active with
  | nil => intro body rtt s h; simp [queryServers] at h
  | cons a rest ih =>
    intro body rtt s h
    cases henv : env name a with
    | reply b r =>
      simp [queryServers, henv] at h
      obtain ⟨hb, hr, ha⟩ := h
      subst hb; subst hr; subst ha
      exact ⟨henv, by simp⟩
    | timeout =>
      simp [queryServers, henv] at h
      obtain ⟨he, hm⟩ := ih body rtt s h
      exact ⟨he, by simp [hm]⟩

theorem queryServers_fst_mem (env : Net) (name : String) (step : Nat) :
    ∀ active : List String, ∀ e ∈ (queryServers env name step active).1,
      ∃ s ∈ active, e = timeoutEntry step s := by
  intro active
  induction active with
  | nil => intro e he; simp [queryServers] at he
  | cons a rest ih =>
    intro e he
    cases henv : env name a with
    | reply b r => simp [queryServers, henv] at he
    | timeout =>
      simp only [queryServers, henv] at he
      rcases List.mem_cons.mp he with he | he
      · exact ⟨a, by simp, he⟩
      · obtain ⟨s, hs, hes⟩ := ih e he
        exact ⟨s, by simp [hs], hes⟩

theorem resolveNamesAux_no_abort (lk : String → RunResult × List TraceEntry) :
    ∀ names : List String,
      (∀ n ∈ names, (lk n).1 ≠ .malformed ∧ (lk n).1 ≠ .outOfFuel) →
      resolveNamesAux lk names =
        .ok (collectIps lk names) (collectTrace lk names) := by
  intro names h
  induction names with
  | nil => rfl
  | cons n rest ih =>
    have hn := h n (by simp)
    have hrest : ∀ t ∈ rest, (lk t).1 ≠ .malformed ∧ (lk t).1 ≠ .outOfFuel :=
      fun t ht => h t (by simp [ht])
    rcases hlk : lk n with ⟨r, t⟩
    have hr1 : (lk n).1 = r := by rw [hlk]
    rw [hr1] at hn
    cases r with
    | answered m =>
      simp [resolveNamesAux, hlk, ih hrest, collectIps, collectTrace, hr1]
    | noServerResponded =>
      simp [resolveNamesAux, hlk, ih hrest, collectIps, collectTrace, hr1]
    | noDelegationPath =>
      simp [resolveNamesAux, hlk, ih hrest, collectIps, collectTrace, hr1]
    | malformed => exact absurd rfl hn.1
    | outOfFuel => exact absurd rfl hn.2

theorem resolveNamesAux_ok_mem (lk : String → RunResult × List TraceEntry) :
    ∀ (names : List String) (ips : List String) (ts : List TraceEntry),
      resolveNamesAux lk names = .ok ips ts →
      ∀ e ∈ ts, ∃ n ∈ names, e ∈ (lk n).2 := by
  intro names
  induction names with
  | nil =>
    intro ips ts h e he
    simp [resolveNamesAux] at h
    rw [h.2] at he
    simp at he
  | cons n rest ih =>
    intro ips ts h e he
    rcases hlk : lk n with ⟨r, t⟩
    cases r with
    | malformed => simp [resolveNamesAux, hlk] at h
    | outOfFuel => simp [resolveNamesAux, hlk] at h
    | answered m =>
      rcases hrec : resolveNamesAux lk rest with r2 | ⟨ips2, ts2⟩
      · simp [resolveNamesAux, hlk, hrec] at h
      · simp [resolveNamesAux, hlk, hrec] at h
        rw [← h.2] at he
        rcases List.mem_append.mp he with he | he
        · exact ⟨n, by simp, by rw [hlk]; exact he⟩
        · obtain ⟨n2, hn2, hen2⟩ := ih ips2 ts2 hrec e he
          exact ⟨n2, by simp [hn2], hen2⟩
    | noServerResponded =>
      rcases hrec : resolveNamesAux lk rest with r2 | ⟨ips2, ts2⟩
      · simp [resolveNamesAux, hlk, hrec] at h
      · simp [resolveNamesAux, hlk, hrec] at h
        rw [← h.2] at he
        rcases List.mem_append.mp he with he | he
        · exact ⟨n, by simp, by rw [hlk]; exact he⟩
        · obtain ⟨n2, hn2, hen2⟩ := ih ips2 ts2 hrec e he
          exact ⟨n2, by simp [hn2], hen2⟩
    | noDelegationPath =>
      rcases hrec : resolveNamesAux lk rest with r2 | ⟨ips2, ts2⟩
      · simp [resolveNamesAux, hlk, hrec] at h
      · simp [resolveNamesAux, hlk, hrec] at h
        rw [← h.2] at he
        rcases List.mem_append.mp he with he | he
        · exact ⟨n, by simp, by rw [hlk]; exact he⟩
        · obtain ⟨n2, hn2, hen2⟩ := ih ips2 ts2 hrec e he
          exact ⟨n2, by simp [hn2], hen2⟩

theorem classifyStage_valid (step : Nat) (m : Msg) :
    classifyStage step m = "Root" ∨ classifyStage step m = "TLD" ∨
      classifyStage step m = "Authoritative" := by
  unfold classifyStage
  split
  · left; rfl
  · split
    · right; left; rfl
    · right; right; rfl

theorem classifyStage_ne_timeout (step : Nat) (m : Msg) :
    classifyStage step m ≠ "Timeout" := by
  rcases classifyStage_valid step m with h | h | h <;> rw [h] <;> decide

theorem runLoop_entry_shape (env : Net) :
    ∀ (fuel : Nat) (name : String) (step : Nat) (active : List String),
      ∀ e ∈ (runLoop env fuel name step active).2,
        (∃ st s, e = timeoutEntry st s) ∨
          (∃ st m s rtt, e = replyEntry st m s rtt) := by
  intro fuel
  induction fuel with
  | zero => intro name step active e he; simp [runLoop] at he
  | succ fuel ih =>
    intro name step active e he
    simp only [runLoop] at he
    rcases hq : queryServers env name step active with ⟨tt, ores⟩
    rw [hq] at he
    have httmem : ∀ x ∈ tt, ∃ s ∈ active, x = timeoutEntry step s := by
      intro x hx
      exact queryServers_fst_mem env name step active x (by rw [hq]; exact hx)
    cases ores with
    | none =>
      simp only at he
      obtain ⟨s, _, hs⟩ := httmem e he
      exact .inl ⟨step, s, hs⟩
    | some res =>
      rcases res with ⟨body, rtt, srv⟩
      cases body with
      | none => simp at he
      | some m =>
        simp only at he
        by_cases hrr : m.rr = []
        · simp only [hrr, ne_eq, not_true_eq_false, if_false] at he
          by_cases hg : extractGlue m = []
          · simp only [hg, ne_eq, not_true_eq_false, if_false] at he
            rcases hres : resolveNamesAux
                (fun n => runLoop env fuel n 1 NAME_SERVERS) (extractNS m) with
              r2 | ⟨ips, nt⟩
            · rw [hres] at he
              simp at he
            · rw [hres] at he
              have hnt : ∀ x ∈ nt, (∃ st s, x = timeoutEntry st s) ∨
                  (∃ st m2 s r2, x = replyEntry st m2 s r2) := by
                intro x hx
                obtain ⟨n2, _, hxn⟩ := resolveNamesAux_ok_mem _ _ ips nt hres x hx
                exact ih n2 1 NAME_SERVERS x hxn
              by_cases hips : ips = []
              · simp only [hips, if_true] at he
                rcases List.mem_append.mp he with he2 | he2
                · rcases List.mem_append.mp he2 with he3 | he3
                  · obtain ⟨s, _, hs⟩ := httmem e he3
                    exact .inl ⟨step, s, hs⟩
                  · simp at he3
                    exact .inr ⟨step, m, srv, rtt, he3⟩
                · exact hnt e he2
              · simp only [hips, if_false] at he
                rcases hc : runLoop env fuel name (step + 1) ips with ⟨rc, tc⟩
                rw [hc] at he
                cases rc with
                | malformed => simp at he
                | answered m2 =>
                  simp only at he
                  rcases List.mem_append.mp he with he2 | he2
                  · rcases List.mem_append.mp he2 with he3 | he3
                    · rcases List.mem_append.mp he3 with he4 | he4
                      · obtain ⟨s, _, hs⟩ := httmem e he4
                        exact .inl ⟨step, s, hs⟩
                      · simp at he4
                        exact .inr ⟨step, m, srv, rtt, he4⟩
                    · exact hnt e he3
                  · exact ih name (step + 1) ips e (by rw [hc]; exact he2)
                | noServerResponded =>
                  simp only at he
                  rcases List.mem_append.mp he with he2 | he2
                  · rcases List.mem_append.mp he2 with he3 | he3
                    · rcases List.mem_append.mp he3 with he4 | he4
                      · obtain ⟨s, _, hs⟩ := httmem e he4
                        exact .inl ⟨step, s, hs⟩
                      · simp at he4
                        exact .inr ⟨step, m, srv, rtt, he4⟩
                    · exact hnt e he3
                  · exact ih name (step + 1) ips e (by rw [hc]; exact he2)
                | noDelegationPath =>
                  simp only at he
                  rcases List.mem_append.mp he with he2 | he2
                  · rcases List.mem_append.mp he2 with he3 | he3
                    · rcases List.mem_append.mp he3 with he4 | he4
                      · obtain ⟨s, _, hs⟩ := httmem e he4
                        exact .inl ⟨step, s, hs⟩
                      · simp at he4
                        exact .inr ⟨step, m, srv, rtt, he4⟩
                    · exact hnt e he3
                  · exact ih name (step + 1) ips e (by rw [hc]; exact he2)
                | outOfFuel =>
                  simp only at he
                  rcases List.mem_append.mp he with he2 | he2
                  · rcases List.mem_append.mp he2 with he3 | he3
                    · rcases List.mem_append.mp he3 with he4 | he4
                      · obtain ⟨s, _, hs⟩ := httmem e he4
                        exact .inl ⟨step, s, hs⟩
                      · simp at he4
                        exact .inr ⟨step, m, srv, rtt, he4⟩
                    · exact hnt e he3
                  · exact ih name (step + 1) ips e (by rw [hc]; exact he2)
          · simp only [ne_eq, hg, not_false_eq_true, if_true] at he
            rcases hc : runLoop env fuel name (step + 1) (extractGlue m) with ⟨rc, tc⟩
            rw [hc] at he
            cases rc with
            | malformed => simp at he
            | answered m2 =>
              simp only at he
              rcases List.mem_append.mp he with he2 | he2
              · rcases List.mem_append.mp he2 with he3 | he3
                · obtain ⟨s, _, hs⟩ := httmem e he3
                  exact .inl ⟨step, s, hs⟩
                · simp at he3
                  exact .inr ⟨step, m, srv, rtt, he3⟩
              · exact ih name (step + 1) (extractGlue m) e (by rw [hc]; exact he2)
            | noServerResponded =>
              simp only at he
              rcases List.mem_append.mp he with he2 | he2
              · rcases List.mem_append.mp he2 with he3 | he3
                · obtain ⟨s, _, hs⟩ := httmem e he3
                  exact .inl ⟨step, s, hs⟩
                · simp at he3
                  exact .inr ⟨step, m, srv, rtt, he3⟩
              · exact ih name (step + 1) (extractGlue m) e (by rw [hc]; exact he2)
            | noDelegationPath =>
              simp only at he
              rcases List.mem_append.mp he with he2 | he2
              · rcases List.mem_append.mp he2 with he3 | he3
                · obtain ⟨s, _, hs⟩ := httmem e he3
                  exact .inl ⟨step, s, hs⟩
                · simp at he3
                  exact .inr ⟨step, m, srv, rtt, he3⟩
              · exact ih name (step + 1) (extractGlue m) e (by rw [hc]; exact he2)
            | outOfFuel =>
              simp only at he
              rcases List.mem_append.mp he with he2 | he2
              · rcases List.mem_append.mp he2 with he3 | he3
                · obtain ⟨s, _, hs⟩ := httmem e he3
                  exact .inl ⟨step, s, hs⟩
                · simp at he3
                  exact .inr ⟨step, m, srv, rtt, he3⟩
              · exact ih name (step + 1) (extractGlue m) e (by rw [hc]; exact he2)
        · simp only [ne_eq, hrr, not_false_eq_true, if_true] at he
          rcases List.mem_append.mp he with he2 | he2
          · obtain ⟨s, _, hs⟩ := httmem e he2
            exact .inl ⟨step, s, hs⟩
          · simp at he2
            exact .inr ⟨step, m, srv, rtt, he2⟩

/-- C10: in every trace entry produced by hierarchical_lookup, the rtt
field is None exactly when the entry's stage is "Timeout", and the mode
field is always the string "Iterative". -/
theorem c10_rtt_none_iff_timeout (env : Net) (fuel : Nat) (name : String)
    (e : TraceEntry) (he : e ∈ (hierarchical_lookup env fuel name).2) :
    (e.rtt = none ↔ e.stage = "Timeout") ∧ e.mode = "Iterative" := by
  rcases runLoop_entry_shape env fuel name 1 NAME_SERVERS e he with
    ⟨st, s, rfl⟩ | ⟨st, m, s, rtt, rfl⟩
  · simp [timeoutEntry]
  · simp [replyEntry, classifyStage_ne_timeout st m]

/-- Witness for C10 on a concrete resolution: the single entry of a
one-step answered run satisfies the invariant. -/
theorem c10_rtt_none_iff_timeout_witness :
    ((replyEntry 1 ansMsg "198.41.0.4" 5).rtt = none ↔
      (replyEntry 1 ansMsg "198.41.0.4" 5).stage = "Timeout") ∧
      (replyEntry 1 ansMsg "198.41.0.4" 5).mode = "Iterative" :=
  c10_rtt_none_iff_timeout answerFirstEnv 2 "example.com."
    (replyEntry 1 ansMsg "198.41.0.4" 5) (by decide)

/-- C1: on a malicious responder that always returns a referral back to
itself, hierarchical_lookup never terminates: for every iteration bound
the loop is still running.  The code imposes no maximum hop bound and
has no DelegationLoopExceeded failure. -/
theorem c1_cyclic_referral_never_terminates (fuel : Nat) :
    (hierarchical_lookup loopEnv fuel "evil.example.").1 = .outOfFuel := by
  have key : ∀ (f : Nat) (name : String) (step : Nat) (active : List String),
      active ≠ [] → (runLoop loopEnv f name step active).1 = .outOfFuel := by
    intro f
    induction f with
    | zero => intro name step active _; rfl
    | succ f ih =>
      intro name step active hne
      rcases active with _ | ⟨a, rest⟩
      · exact absurd rfl hne
      · have hq : queryServers loopEnv name step (a :: rest) =
            ([], some (some refGlueMsg, 1, a)) := rfl
        simp only [runLoop, hq]
        have hrr : refGlueMsg.rr = [] := rfl
        have hglue : extractGlue refGlueMsg = ["6.6.6.6"] := rfl
        simp only [hrr, hglue, ne_eq, not_true_eq_false, if_false]
        have hrec := ih name (step + 1) ["6.6.6.6"] (by simp)
        rcases hc : runLoop loopEnv f name (step + 1) ["6.6.6.6"] with ⟨rc, tc⟩
        rw [hc] at hrec
        simp only at hrec
        subst hrec
        simp
  exact key fuel "evil.example." 1 NAME_SERVERS (by simp [NAME_SERVERS])

/-- C3: when every candidate server of a stage times out, the loop
fails with noServerResponded and the stage contributes exactly one
Timeout trace entry per server, in the order attempted; when some
server replies, the servers scanned before it each contribute one
Timeout entry and the scan stops at that first replying server,
whose reply is the one used. -/
theorem c3_all_timeout_one_entry_per_server (env : Net) (name : String)
    (fuel step : Nat) (active pre post : List String) (s : String)
    (body : Option Msg) (rtt : Nat)
    (hall : ∀ t ∈ active, env name t = .timeout)
    (hpre : ∀ t ∈ pre, env name t = .timeout)
    (hs : env name s = .reply body rtt) :
    runLoop env (fuel + 1) name step active =
      (.noServerResponded, active.map (timeoutEntry step)) ∧
    queryServers env name step (pre ++ s :: post) =
      (pre.map (timeoutEntry step), some (body, rtt, s)) := by
  constructor
  · simp only [runLoop, queryServers_all_timeout env name step active hall]
  · exact queryServers_split env name step s post body rtt pre hpre hs

/-- Witness for C3: in a network where the first root server times out
and the second replies, the stage with only the third (silent) server
fails with one Timeout entry, and the full root scan records one
Timeout entry for the first server before using the second server's
reply. -/
theorem c3_all_timeout_one_entry_per_server_witness :
    runLoop timeoutThenAnswerEnv 1 "example.com." 1 ["192.33.4.12"] =
      (.noServerResponded, List.map (timeoutEntry 1) ["192.33.4.12"]) ∧
    queryServers timeoutThenAnswerEnv "example.com." 1
        (["198.41.0.4"] ++ "199.9.14.201" :: ["192.33.4.12"]) =
      (List.map (timeoutEntry 1) ["198.41.0.4"],
        some (some ansMsg, 5, "199.9.14.201")) :=
  c3_all_timeout_one_entry_per_server timeoutThenAnswerEnv "example.com." 0 1
    ["192.33.4.12"] ["198.41.0.4"] ["192.33.4.12"] "199.9.14.201"
    (some ansMsg) 5 (by decide) (by decide) (by decide)

/-- C7 counterexample: the first root server returns undecodable bytes
while the second root server would have returned a final answer, yet
the resolution aborts with the decode failure (the DNSRecord.parse
exception escapes hierarchical_lookup and the trace is lost) instead of
moving on to the next candidate server. -/
theorem c7_counterexample :
    hierarchical_lookup malformedFirstEnv 5 "example.com." =
      (.malformed, []) ∧
    malformedFirstEnv "example.com." "199.9.14.201" = .reply (some ansMsg) 7 ∧
    ansMsg.rr ≠ [] := by decide

/-- C7 amended: when the first replying server of a stage returns bytes
that cannot be decoded, the whole resolution aborts with the decode
failure (modelled as the malformed result with an empty trace, as the
exception propagates out of hierarchical_lookup); later candidate
servers are not tried. -/
theorem c7_malformed_reply_aborts_resolution (env : Net) (name : String)
    (fuel step : Nat) (pre post : List String) (s : String) (rtt : Nat)
    (hpre : ∀ t ∈ pre, env name t = .timeout)
    (hs : env name s = .reply none rtt) :
    runLoop env (fuel + 1) name step (pre ++ s :: post) = (.malformed, []) := by
  simp only [runLoop, queryServers_split env name step s post none rtt pre hpre hs]

/-- Witness for the amended C7 at a concrete network. -/
theorem c7_malformed_reply_aborts_resolution_witness :
    runLoop malformedFirstEnv 5 "example.com." 1
      ([] ++ "198.41.0.4" :: ["199.9.14.201", "192.33.4.12"]) = (.malformed, []) :=
  c7_malformed_reply_aborts_resolution malformedFirstEnv "example.com." 4 1
    [] ["199.9.14.201", "192.33.4.12"] "198.41.0.4" 2 (by decide) (by decide)

/-- C8: the stage recorded in a decoded reply's trace entry is the
classifier's value, and the classifier is "Root" exactly when the step
counter is 1; for a later step it is "TLD" exactly when the reply
carries at least one authority record and no answer records, and
"Authoritative" otherwise. -/
theorem c8_stage_classification (step : Nat) (m : Msg) (srv : String) (rtt : Nat) :
    (replyEntry step m srv rtt).stage = classifyStage step m ∧
    (classifyStage step m = "Root" ↔ step = 1) ∧
    (step ≠ 1 → (classifyStage step m = "TLD" ↔ 0 < m.auth.length ∧ m.rr = [])) ∧
    (step ≠ 1 → ¬(0 < m.auth.length ∧ m.rr = []) →
      classifyStage step m = "Authoritative") := by
  refine ⟨rfl, ?_, ?_, ?_⟩
  · by_cases h1 : step = 1
    · simp [classifyStage, h1]
    · simp only [classifyStage, if_neg h1]
      constructor
      · intro h
        by_cases h2 : 0 < m.auth.length ∧ m.rr = []
        · rw [if_pos h2] at h; exact absurd h (by decide)
        · rw [if_neg h2] at h; exact absurd h (by decide)
      · intro h; exact absurd h h1
  · intro h1
    simp only [classifyStage, if_neg h1]
    constructor
    · intro h
      by_cases h2 : 0 < m.auth.length ∧ m.rr = []
      · exact h2
      · rw [if_neg h2] at h; exact absurd h (by decide)
    · intro h2; rw [if_pos h2]
  · intro h1 h2
    simp only [classifyStage, if_neg h1, if_neg h2]

/-- Witness for C8 at concrete steps and messages: step 2 on a
glueless referral classifies as TLD, step 1 on an answer classifies as
Root. -/
theorem c8_stage_classification_witness :
    (classifyStage 2 gluelessRefMsg = "TLD" ↔
      0 < gluelessRefMsg.auth.length ∧ gluelessRefMsg.rr = []) ∧
    (classifyStage 1 ansMsg = "Root" ↔ 1 = 1) :=
  ⟨(c8_stage_classification 2 gluelessRefMsg "198.41.0.4" 3).2.2.1 (by decide),
   (c8_stage_classification 1 ansMsg "198.41.0.4" 5).2.1⟩

/-- C4: after a referral reply with no answer records, the next server
set is the additional-section glue addresses when any exist; with no
glue, the authority section's nameserver names are each resolved by a
nested call and the collected addresses drive the next stage; and when
neither glue nor the nested resolutions yield any address, the
resolution fails with noDelegationPath. -/
theorem c4_referral_next_servers (env : Net) (name : String)
    (fuel step : Nat) (active : List String) (tt : List TraceEntry)
    (m : Msg) (rtt : Nat) (srv : String)
    (hq : queryServers env name step active = (tt, some (some m, rtt, srv)))
    (hrr : m.rr = []) :
    (extractGlue m ≠ [] →
      (runLoop env (fuel + 1) name step active).1 =
        (runLoop env fuel name (step + 1) (extractGlue m)).1) ∧
    (extractGlue m = [] → ∀ ts,
      resolveNamesAux (fun n => runLoop env fuel n 1 NAME_SERVERS)
          (extractNS m) = .ok [] ts →
      (runLoop env (fuel + 1) name step active).1 = .noDelegationPath) ∧
    (extractGlue m = [] → ∀ ips ts, ips ≠ [] →
      resolveNamesAux (fun n => runLoop env fuel n 1 NAME_SERVERS)
          (extractNS m) = .ok ips ts →
      (runLoop env (fuel + 1) name step active).1 =
        (runLoop env fuel name (step + 1) ips).1) := by
  refine ⟨?_, ?_, ?_⟩
  · intro hg
    simp only [runLoop, hq, hrr, ne_eq, not_true_eq_false, if_false,
      hg, not_false_eq_true, if_true]
    rcases hc : runLoop env fuel name (step + 1) (extractGlue m) with ⟨rc, tc⟩
    cases rc <;> rfl
  · intro hg ts hres
    simp only [runLoop, hq, hrr, ne_eq, not_true_eq_false, if_false,
      hg, if_true, hres]
  · intro hg ips ts hipsne hres
    simp only [runLoop, hq, hrr, ne_eq, not_true_eq_false, if_false,
      hg, if_true, hres, hipsne]
    rcases hc : runLoop env fuel name (step + 1) ips with ⟨rc, tc⟩
    cases rc <;> rfl

/-- Witness for C4 on a concrete network: a glued referral at step 1
hands the glue address to step 2, whose outcome is the resolution's
outcome. -/
theorem c4_referral_next_servers_witness :
    (runLoop glueRefEnv 2 "example.com." 1 NAME_SERVERS).1 =
      (runLoop glueRefEnv 1 "example.com." 2 (extractGlue refGlueMsg)).1 :=
  (c4_referral_next_servers glueRefEnv "example.com." 1 1 NAME_SERVERS []
    refGlueMsg 2 "198.41.0.4" (by decide) (by decide)).1 (by decide)

/-- C6: the glueless-referral chase resolves each nameserver name by a
nested run of the same algorithm and merges the nested traces into the
parent's trace in nameserver order, none lost or duplicated: the chase
returns exactly the concatenation of the nested traces, and the
parent's trace is its own stage entries followed by that concatenation
followed by the continuation's trace, one linear log. -/
theorem c6_nested_traces_merged (env : Net) (name : String)
    (fuel step : Nat) (active : List String) (tt : List TraceEntry)
    (m : Msg) (rtt : Nat) (srv : String) (ips : List String)
    (hq : queryServers env name step active = (tt, some (some m, rtt, srv)))
    (hrr : m.rr = []) (hg : extractGlue m = [])
    (hok : ∀ n ∈ extractNS m,
      (runLoop env fuel n 1 NAME_SERVERS).1 ≠ .malformed ∧
      (runLoop env fuel n 1 NAME_SERVERS).1 ≠ .outOfFuel)
    (hips : collectIps (fun n => runLoop env fuel n 1 NAME_SERVERS)
      (extractNS m) = ips)
    (hipsne : ips ≠ [])
    (hcont : (runLoop env fuel name (step + 1) ips).1 ≠ .malformed) :
    resolveNamesAux (fun n => runLoop env fuel n 1 NAME_SERVERS)
        (extractNS m) =
      .ok ips (collectTrace (fun n => runLoop env fuel n 1 NAME_SERVERS)
        (extractNS m)) ∧
    (runLoop env (fuel + 1) name step active).2 =
      tt ++ [replyEntry step m srv rtt] ++
        collectTrace (fun n => runLoop env fuel n 1 NAME_SERVERS)
          (extractNS m) ++
        (runLoop env fuel name (step + 1) ips).2 := by
  have hres := resolveNamesAux_no_abort
    (fun n => runLoop env fuel n 1 NAME_SERVERS) (extractNS m) hok
  rw [hips] at hres
  refine ⟨hres, ?_⟩
  simp only [runLoop, hq, hrr, ne_eq, not_true_eq_false, if_false,
    hg, if_true, hres, hipsne]

/-- Witness for C6 on a concrete network with a glueless referral: the
nested resolution of ns1.tld. is answered and its trace is merged into
the parent's. -/
theorem c6_nested_traces_merged_witness :
    resolveNamesAux (fun n => runLoop gluelessEnv 2 n 1 NAME_SERVERS)
        (extractNS gluelessRefMsg) =
      .ok ["9.9.9.9"] (collectTrace
        (fun n => runLoop gluelessEnv 2 n 1 NAME_SERVERS)
        (extractNS gluelessRefMsg)) ∧
    (runLoop gluelessEnv 3 "example.com." 1 NAME_SERVERS).2 =
      [] ++ [replyEntry 1 gluelessRefMsg "198.41.0.4" 4] ++
        collectTrace (fun n => runLoop gluelessEnv 2 n 1 NAME_SERVERS)
          (extractNS gluelessRefMsg) ++
        (runLoop gluelessEnv 2 "example.com." 2 ["9.9.9.9"]).2 :=
  c6_nested_traces_merged gluelessEnv "example.com." 2 1 NAME_SERVERS []
    gluelessRefMsg 4 "198.41.0.4" ["9.9.9.9"] (by decide) (by decide)
    (by decide) (by decide) (by decide) (by decide) (by decide)

theorem chainLe_of_all_eq (c : Nat) :
    ∀ l : List Nat, (∀ x ∈ l, x = c) → List.Chain' (· ≤ ·) l := by
  intro l h
  induction l with
  | nil => simp
  | cons a t ih =>
    cases t with
    | nil => simp
    | cons b t2 =>
      rw [List.chain'_cons]
      refine ⟨?_, ih ?_⟩
      · have ha := h a (by simp)
        have hb := h b (by simp)
        omega
      · intro x hx; exact h x (by simp [hx])

theorem chain_build (step : Nat) (front tc : List TraceEntry)
    (hfront : ∀ e ∈ front, e.step = step)
    (htc : ∀ e ∈ tc, step + 1 ≤ e.step)
    (hchain : List.Chain' (· ≤ ·) (tc.map TraceEntry.step)) :
    (∀ e ∈ front ++ tc, step ≤ e.step) ∧
    List.Chain' (· ≤ ·) ((front ++ tc).map TraceEntry.step) := by
  constructor
  · intro e he
    rcases List.mem_append.mp he with he | he
    · exact (hfront e he).ge
    · have := htc e he; omega
  · rw [List.map_append, List.chain'_append]
    refine ⟨?_, hchain, ?_⟩
    · exact chainLe_of_all_eq step _ (by
        intro x hx
        obtain ⟨e, he, rfl⟩ := List.mem_map.mp hx
        exact hfront e he)
    · intro x hx y hy
      have hxm : x ∈ front.map TraceEntry.step := by
        obtain ⟨hne, hxe⟩ := List.mem_getLast?_eq_getLast hx
        rw [hxe]
        exact List.getLast_mem hne
      have hym : y ∈ tc.map TraceEntry.step := List.mem_of_mem_head? hy
      obtain ⟨e, he, rfl⟩ := List.mem_map.mp hxm
      obtain ⟨f, hf, rfl⟩ := List.mem_map.mp hym
      have h1 := hfront e he
      have h2 := htc f hf
      omega

theorem c5_aux (env : Net)
    (hglue : ∀ (n s : String) (m : Msg) (rtt : Nat),
      env n s = .reply (some m) rtt → m.rr = [] → extractGlue m ≠ []) :
    ∀ (fuel : Nat) (name : String) (step : Nat) (active : List String),
      (∀ e ∈ (runLoop env fuel name step active).2, step ≤ e.step) ∧
      List.Chain' (· ≤ ·)
        (((runLoop env fuel name step active).2).map TraceEntry.step) := by
  intro fuel
  induction fuel with
  | zero => intro name step active; exact ⟨by simp [runLoop], by simp [runLoop]⟩
  | succ fuel ih =>
    intro name step active
    rcases hq : queryServers env name step active with ⟨tt, ores⟩
    have htt : ∀ e ∈ tt, e.step = step := by
      intro e he
      obtain ⟨s, _, rfl⟩ :=
        queryServers_fst_mem env name step active e (by rw [hq]; exact he)
      rfl
    cases ores with
    | none =>
      have htr : (runLoop env (fuel + 1) name step active).2 = tt := by
        simp only [runLoop, hq]
      rw [htr]
      constructor
      · intro e he; exact (htt e he).ge
      · exact chainLe_of_all_eq step _ (by
          intro x hx
          obtain ⟨e, he, rfl⟩ := List.mem_map.mp hx
          exact htt e he)
    | some res =>
      rcases res with ⟨body, rtt, srv⟩
      cases body with
      | none =>
        have htr : (runLoop env (fuel + 1) name step active).2 = [] := by
          simp only [runLoop, hq]
        rw [htr]; exact ⟨by simp, by simp⟩
      | some m =>
        have henv : env name srv = .reply (some m) rtt :=
          (queryServers_found env name step active (some m) rtt srv
            (by rw [hq])).1
        have hfront : ∀ e ∈ tt ++ [replyEntry step m srv rtt],
            e.step = step := by
          intro e he
          rcases List.mem_append.mp he with he | he
          · exact htt e he
          · simp at he; subst he; rfl
        by_cases hrr : m.rr = []
        · have hgne := hglue name srv m rtt henv hrr
          obtain ⟨ihMem, ihChain⟩ := ih name (step + 1) (extractGlue m)
          have key : (runLoop env (fuel + 1) name step active).2 = [] ∨
              (runLoop env (fuel + 1) name step active).2 =
                (tt ++ [replyEntry step m srv rtt]) ++
                  (runLoop env fuel name (step + 1) (extractGlue m)).2 := by
            rcases hc : runLoop env fuel name (step + 1) (extractGlue m)
              with ⟨rc, tc⟩
            cases rc <;>
              simp only [runLoop, hq, hrr, ne_eq, not_true_eq_false, if_false,
                hgne, not_false_eq_true, if_true, hc] <;> simp
          rcases key with key | key
          · rw [key]; exact ⟨by simp, by simp⟩
          · rw [key]
            exact chain_build step _ _ hfront ihMem ihChain
        · have key : (runLoop env (fuel + 1) name step active).2 =
              tt ++ [replyEntry step m srv rtt] := by
            simp only [runLoop, hq, hrr, ne_eq, not_false_eq_true, if_true]
          rw [key]
          constructor
          · intro e he; exact (hfront e he).ge
          · exact chainLe_of_all_eq step _ (by
              intro x hx
              obtain ⟨e, he, rfl⟩ := List.mem_map.mp hx
              exact hfront e he)

theorem runLoop_reply_trace_shape (env : Net) (name : String)
    (fuel step : Nat) (active : List String) (tt : List TraceEntry)
    (m : Msg) (rtt : Nat) (srv : String)
    (hq : queryServers env name step active = (tt, some (some m, rtt, srv))) :
    (runLoop env (fuel + 1) name step active).2 = [] ∨
    ∃ suffix : List TraceEntry,
      (runLoop env (fuel + 1) name step active).2 =
        tt ++ replyEntry step m srv rtt :: suffix := by
  by_cases hrr : m.rr = []
  · by_cases hg : extractGlue m = []
    · rcases hres : resolveNamesAux (fun n => runLoop env fuel n 1 NAME_SERVERS)
          (extractNS m) with r2 | ⟨ips, nt⟩
      · left
        simp only [runLoop, hq, hrr, ne_eq, not_true_eq_false, if_false,
          hg, if_true, hres]
      · by_cases hips : ips = []
        · right
          refine ⟨nt, ?_⟩
          simp only [runLoop, hq, hrr, ne_eq, not_true_eq_false, if_false,
            hg, if_true, hres, hips]
          simp
        · rcases hc : runLoop env fuel name (step + 1) ips with ⟨rc, tc⟩
          cases rc with
          | malformed =>
            left
            simp only [runLoop, hq, hrr, ne_eq, not_true_eq_false, if_false,
              hg, if_true, hres, hips, hc]
          | answered m2 =>
            right
            refine ⟨nt ++ tc, ?_⟩
            simp only [runLoop, hq, hrr, ne_eq, not_true_eq_false, if_false,
              hg, if_true, hres, hips, hc]
            simp
          | noServerResponded =>
            right
            refine ⟨nt ++ tc, ?_⟩
            simp only [runLoop, hq, hrr, ne_eq, not_true_eq_false, if_false,
              hg, if_true, hres, hips, hc]
            simp
          | noDelegationPath =>
            right
            refine ⟨nt ++ tc, ?_⟩
            simp only [runLoop, hq, hrr, ne_eq, not_true_eq_false, if_false,
              hg, if_true, hres, hips, hc]
            simp
          | outOfFuel =>
            right
            refine ⟨nt ++ tc, ?_⟩
            simp only [runLoop, hq, hrr, ne_eq, not_true_eq_false, if_false,
              hg, if_true, hres, hips, hc]
            simp
    · rcases hc : runLoop env fuel name (step + 1) (extractGlue m)
        with ⟨rc, tc⟩
      cases rc with
      | malformed =>
        left
        simp only [runLoop, hq, hrr, ne_eq, not_true_eq_false, if_false,
          hg, not_false_eq_true, if_true, hc]
      | answered m2 =>
        right
        refine ⟨tc, ?_⟩
        simp only [runLoop, hq, hrr, ne_eq, not_true_eq_false, if_false,
          hg, not_false_eq_true, if_true, hc]
        simp
      | noServerResponded =>
        right
        refine ⟨tc, ?_⟩
        simp only [runLoop, hq, hrr, ne_eq, not_true_eq_false, if_false,
          hg, not_false_eq_true, if_true, hc]
        simp
      | noDelegationPath =>
        right
        refine ⟨tc, ?_⟩
        simp only [runLoop, hq, hrr, ne_eq, not_true_eq_false, if_false,
          hg, not_false_eq_true, if_true, hc]
        simp
      | outOfFuel =>
        right
        refine ⟨tc, ?_⟩
        simp only [runLoop, hq, hrr, ne_eq, not_true_eq_false, if_false,
          hg, not_false_eq_true, if_true, hc]
        simp
  · right
    refine ⟨[], ?_⟩
    simp only [runLoop, hq, hrr, ne_eq, not_false_eq_true, if_true]

/-- C5 counterexample: with the first root server timing out and the
second replying with a final answer, the trace's step values are
[1, 1] — the Timeout entry and the stage's reply entry share the step
counter — so the step values are not strictly increasing. -/
theorem c5_counterexample :
    ((hierarchical_lookup timeoutThenAnswerEnv 4 "example.com.").2.map
        TraceEntry.step = [1, 1]) ∧
    ¬ List.Chain' (· < ·)
      ((hierarchical_lookup timeoutThenAnswerEnv 4 "example.com.").2.map
        TraceEntry.step) := by
  have h : (hierarchical_lookup timeoutThenAnswerEnv 4 "example.com.").2.map
      TraceEntry.step = [1, 1] := by decide
  refine ⟨h, ?_⟩
  rw [h]
  simp [List.chain'_cons]

/-- C5 amended: as long as every referral reply carries glue (so that
no nested glue lookup restarts the step counter inside the parent
trace), the trace's step values are non-decreasing and start at 1
(entries of one stage — its timeouts and its reply — share the stage's
step value); every entry's stage is one of Root, TLD, Authoritative,
Timeout; and the first non-timeout entry always has stage Root. -/
theorem c5_trace_invariants (env : Net) (fuel : Nat) (name : String)
    (hglue : ∀ (n s : String) (m : Msg) (rtt : Nat),
      env n s = .reply (some m) rtt → m.rr = [] → extractGlue m ≠ []) :
    List.Chain' (· ≤ ·)
      (((hierarchical_lookup env fuel name).2).map TraceEntry.step) ∧
    (∀ e ∈ (hierarchical_lookup env fuel name).2,
      e.stage = "Root" ∨ e.stage = "TLD" ∨ e.stage = "Authoritative" ∨
        e.stage = "Timeout") ∧
    (∀ e, (((hierarchical_lookup env fuel name).2).filter
        (fun x => x.stage != "Timeout")).head? = some e →
      e.stage = "Root") ∧
    (∀ e, ((hierarchical_lookup env fuel name).2).head? = some e →
      e.step = 1) := by
  refine ⟨(c5_aux env hglue fuel name 1 NAME_SERVERS).2, ?_, ?_, ?_⟩
  · intro e he
    rcases runLoop_entry_shape env fuel name 1 NAME_SERVERS e he with
      ⟨st, s, rfl⟩ | ⟨st, m, s, rtt, rfl⟩
    · right; right; right; rfl
    · rcases classifyStage_valid st m with h | h | h
      · left; exact h
      · right; left; exact h
      · right; right; left; exact h
  · cases fuel with
    | zero =>
      intro e he
      have h0 : (hierarchical_lookup env 0 name).2 = [] := rfl
      rw [h0] at he
      simp at he
    | succ fuel =>
      intro e he
      rcases hq : queryServers env name 1 NAME_SERVERS with ⟨tt, ores⟩
      have httstage : ∀ x ∈ tt, x.stage = "Timeout" := by
        intro x hx
        obtain ⟨s, _, rfl⟩ := queryServers_fst_mem env name 1 NAME_SERVERS x
          (by rw [hq]; exact hx)
        rfl
      have hfilter_tt : tt.filter (fun x => x.stage != "Timeout") = [] := by
        rw [List.filter_eq_nil_iff]
        intro a ha
        simp [httstage a ha]
      cases ores with
      | none =>
        have htr : (hierarchical_lookup env (fuel + 1) name).2 = tt := by
          simp only [hierarchical_lookup, runLoop, hq]
        rw [htr, hfilter_tt] at he
        simp at he
      | some res =>
        rcases res with ⟨body, rtt, srv⟩
        cases body with
        | none =>
          have htr : (hierarchical_lookup env (fuel + 1) name).2 = [] := by
            simp only [hierarchical_lookup, runLoop, hq]
          rw [htr] at he
          simp at he
        | some m =>
          rcases runLoop_reply_trace_shape env name fuel 1 NAME_SERVERS tt
              m rtt srv hq with hsh | ⟨suffix, hsh⟩
          · have htr : (hierarchical_lookup env (fuel + 1) name).2 =
                (runLoop env (fuel + 1) name 1 NAME_SERVERS).2 := rfl
            rw [htr, hsh] at he
            simp at he
          · have htr : (hierarchical_lookup env (fuel + 1) name).2 =
                (runLoop env (fuel + 1) name 1 NAME_SERVERS).2 := rfl
            rw [htr, hsh, List.filter_append, hfilter_tt] at he
            have hstage : (replyEntry 1 m srv rtt).stage = "Root" := by
              simp [replyEntry, classifyStage]
            have hpred : ((replyEntry 1 m srv rtt).stage != "Timeout") = true := by
              rw [hstage]; rfl
            simp only [List.nil_append] at he
            rw [List.filter_cons] at he
            simp only [hpred] at he
            simp at he
            rw [← he]
            exact hstage
  · cases fuel with
    | zero =>
      intro e he
      have h0 : (hierarchical_lookup env 0 name).2 = [] := rfl
      rw [h0] at he
      simp at he
    | succ fuel =>
      intro e he
      rcases hq : queryServers env name 1 NAME_SERVERS with ⟨tt, ores⟩
      have httstep : ∀ x ∈ tt, x.step = 1 := by
        intro x hx
        obtain ⟨s, _, rfl⟩ := queryServers_fst_mem env name 1 NAME_SERVERS x
          (by rw [hq]; exact hx)
        rfl
      cases ores with
      | none =>
        have htr : (hierarchical_lookup env (fuel + 1) name).2 = tt := by
          simp only [hierarchical_lookup, runLoop, hq]
        rw [htr] at he
        exact httstep e (List.mem_of_mem_head? he)
      | some res =>
        rcases res with ⟨body, rtt, srv⟩
        cases body with
        | none =>
          have htr : (hierarchical_lookup env (fuel + 1) name).2 = [] := by
            simp only [hierarchical_lookup, runLoop, hq]
          rw [htr] at he
          simp at he
        | some m =>
          rcases runLoop_reply_trace_shape env name fuel 1 NAME_SERVERS tt
              m rtt srv hq with hsh | ⟨suffix, hsh⟩
          · have htr : (hierarchical_lookup env (fuel + 1) name).2 =
                (runLoop env (fuel + 1) name 1 NAME_SERVERS).2 := rfl
            rw [htr, hsh] at he
            simp at he
          · have htr : (hierarchical_lookup env (fuel + 1) name).2 =
                (runLoop env (fuel + 1) name 1 NAME_SERVERS).2 := rfl
            rw [htr, hsh] at he
            cases tt with
            | nil =>
              simp at he
              rw [← he]
              rfl
            | cons a t =>
              simp at he
              rw [← he]
              exact httstep a (by simp)

/-- Witness for the amended C5 on a concrete network whose only reply
is a final answer (so every referral hypothesis holds vacuously). -/
theorem c5_trace_invariants_witness :
    List.Chain' (· ≤ ·)
      (((hierarchical_lookup answerFirstEnv 2 "example.com.").2).map
        TraceEntry.step) ∧
    (∀ e ∈ (hierarchical_lookup answerFirstEnv 2 "example.com.").2,
      e.stage = "Root" ∨ e.stage = "TLD" ∨ e.stage = "Authoritative" ∨
        e.stage = "Timeout") ∧
    (∀ e, (((hierarchical_lookup answerFirstEnv 2 "example.com.").2).filter
        (fun x => x.stage != "Timeout")).head? = some e →
      e.stage = "Root") ∧
    (∀ e, ((hierarchical_lookup answerFirstEnv 2 "example.com.").2).head? =
        some e → e.step = 1) :=
  c5_trace_invariants answerFirstEnv 2 "example.com." (by
    intro n s m rtt h hm
    unfold answerFirstEnv at h
    split at h
    · injection h with h1 h2
      injection h1 with h1
      rw [← h1] at hm
      exact absurd hm (by decide)
    · simp at h)

/-- C2 counterexample: in the batch resolver of c2.py, a resolution
that reaches an authoritative reply with a non-empty answer section
holding no address-type record set stores nothing in the cache, and a
second lookup of the same name misses again — refuting the claim that
every reached reply with non-empty answer records is cached and then
served from the cache. -/
theorem c2_counterexample :
    txtAnswerEnv2 "example.com" "2.2.2.2" =
      .reply { answer := [{ rdtype := 16, items := ["unexpected"] }],
               additional := [] } 4 ∧
    (step_by_step_lookup txtAnswerEnv2 [] "example.com").addrs = some [] ∧
    (step_by_step_lookup txtAnswerEnv2 [] "example.com").cache = [] ∧
    (step_by_step_lookup txtAnswerEnv2
      (step_by_step_lookup txtAnswerEnv2 [] "example.com").cache
      "example.com").cacheFlag = "MISS" := by decide

/-- C2 amended: a reply with answer records terminates
hierarchical_lookup successfully with a trace entry summarizing the
answer; and in the batch resolver, when the authoritative reply's
answer section yields at least one address-type record, the resolved
addresses are stored in the cache and a second lookup of the same name
returns the cached value with elapsed time 0, the HIT flag and a
cache-hit trace line. -/
theorem c2_answer_cached_and_hit (env : Net) (name : String)
    (fuel step : Nat) (active : List String) (tt : List TraceEntry)
    (m : Msg) (rtt : Nat) (srv : String)
    (env2 : Net2) (host tld auth : String)
    (cache : List (String × List String))
    (l1 l2 : List LogLine) (r1 r2 : Nat) (m2 : DnsMsg2) (rtt2 : Nat)
    (hq : queryServers env name step active = (tt, some (some m, rtt, srv)))
    (hrr : m.rr ≠ [])
    (hnc : cacheLookup cache host = none)
    (h1 : phase1 env2 host PRIMARY_SERVERS = (l1, r1, some tld))
    (h2 : phase2 env2 host tld = .ok l2 r2 (some auth))
    (h3 : env2 host auth = .reply m2 rtt2)
    (hans : m2.answer ≠ [])
    (haddr : extractAall m2.answer ≠ []) :
    runLoop env (fuel + 1) name step active =
      (.answered m, tt ++ [replyEntry step m srv rtt]) ∧
    step_by_step_lookup env2 cache host =
      { addrs := some (extractAall m2.answer), elapsed := r1 + r2 + rtt2,
        cacheFlag := "MISS",
        cache := (host, extractAall m2.answer) :: cache,
        logs := l1 ++ l2 ++
          [.authAnswer host auth (extractAall m2.answer) rtt2] ++
          [.totalStored host] } ∧
    step_by_step_lookup env2 ((host, extractAall m2.answer) :: cache) host =
      { addrs := some (extractAall m2.answer), elapsed := 0,
        cacheFlag := "HIT",
        cache := (host, extractAall m2.answer) :: cache,
        logs := [.cacheHit host (extractAall m2.answer)] } := by
  refine ⟨?_, ?_, ?_⟩
  · simp only [runLoop, hq, hrr, ne_eq, not_false_eq_true, if_true]
  · have h3p : phase3 env2 host (some auth) =
        ([.authAnswer host auth (extractAall m2.answer) rtt2], rtt2,
          some (extractAall m2.answer)) := by
      simp only [phase3, h3, hans, ne_eq, not_false_eq_true, if_true]
    simp only [step_by_step_lookup, hnc, h1, h2, h3p, haddr, ne_eq,
      not_false_eq_true, if_true]
  · have hl : cacheLookup ((host, extractAall m2.answer) :: cache) host =
        some (extractAall m2.answer) := by
      simp [cacheLookup]
    simp only [step_by_step_lookup, hl]

/-- Witness for the amended C2 on concrete networks: the answer is
cached and the second lookup hits with elapsed 0. -/
theorem c2_answer_cached_and_hit_witness :
    runLoop answerFirstEnv 2 "example.com." 1 NAME_SERVERS =
      (.answered ansMsg, [] ++ [replyEntry 1 ansMsg "198.41.0.4" 5]) ∧
    step_by_step_lookup goodAnswerEnv2 [] "example.com" =
      { addrs := some (extractAall goodAuthMsg2.answer), elapsed := 2 + 3 + 4,
        cacheFlag := "MISS",
        cache := [("example.com", extractAall goodAuthMsg2.answer)],
        logs := [.rootReferral "example.com" "198.41.0.4" 2] ++
          [.tldReferral "example.com" "1.1.1.1" 3] ++
          [.authAnswer "example.com" "2.2.2.2"
            (extractAall goodAuthMsg2.answer) 4] ++
          [.totalStored "example.com"] } ∧
    step_by_step_lookup goodAnswerEnv2
        [("example.com", extractAall goodAuthMsg2.answer)] "example.com" =
      { addrs := some (extractAall goodAuthMsg2.answer), elapsed := 0,
        cacheFlag := "HIT",
        cache := [("example.com", extractAall goodAuthMsg2.answer)],
        logs := [.cacheHit "example.com" (extractAall goodAuthMsg2.answer)] } :=
  c2_answer_cached_and_hit answerFirstEnv "example.com." 1 1 NAME_SERVERS []
    ansMsg 5 "198.41.0.4" goodAnswerEnv2 "example.com" "1.1.1.1" "2.2.2.2" []
    [.rootReferral "example.com" "198.41.0.4" 2]
    [.tldReferral "example.com" "1.1.1.1" 3] 2 3 goodAuthMsg2 4
    (by decide) (by decide) (by decide) (by decide) (by decide) (by decide)
    (by decide) (by decide)

theorem decodeNameF_encodeName :
    ∀ (name : List (List Nat)) (tail : List Nat) (fuel : Nat),
      (∀ l ∈ name, l.length ≤ 63) →
      (encodeName name ++ tail).length ≤ fuel →
      decodeNameF fuel (encodeName name ++ tail) = some (name, tail) := by
  intro name
  induction name with
  | nil =>
    intro tail fuel h hf
    cases fuel with
    | zero => simp [encodeName] at hf
    | succ f => simp [encodeName, decodeNameF, nameEndMarker]
  | cons l rest ih =>
    intro tail fuel h hf
    have hstep : encodeName (l :: rest) ++ tail =
        l.length :: (l ++ (encodeName rest ++ tail)) := by
      simp [encodeName]
    cases fuel with
    | zero =>
      rw [hstep] at hf
      simp at hf
    | succ f =>
      have hl : l.length ≤ 63 := h l (by simp)
      have hne : ¬ l.length = nameEndMarker := by
        unfold nameEndMarker; omega
      rw [hstep]
      rw [hstep] at hf
      simp only [decodeNameF]
      rw [if_neg hne]
      have hlen : l.length ≤ (l ++ (encodeName rest ++ tail)).length := by
        simp
      rw [if_pos hlen]
      rw [List.drop_left, List.take_left]
      have hrec := ih tail f (fun x hx => h x (by simp [hx])) (by
        simp at hf
        simp
        omega)
      rw [hrec]

/-- C9: the Wire Codec contract, modelled from the spec (the encoder
and decoder live in the dnslib library, outside the repository): for a
name whose labels are at most 63 bytes and whose wire length is at most
255 bytes, encoding an A query and decoding it back reproduces the
question name and query type; and a name violating those bounds (such
as one with a 64-byte label) is rejected by encodeQuery with
InvalidName. -/
theorem c9_roundtrip_and_invalid (name name2 : List (List Nat))
    (h1 : ∀ l ∈ name, l.length ≤ 63)
    (h2 : wireNameLength name ≤ 255)
    (h3 : ¬ ((∀ l ∈ name2, l.length ≤ 63) ∧ wireNameLength name2 ≤ 255)) :
    encodeQuery name 1 = .ok (encodeName name ++ [1]) ∧
    decode (encodeName name ++ [1]) = .ok { qname := name, qtype := 1 } ∧
    encodeQuery name2 1 = .error .InvalidName := by
  refine ⟨?_, ?_, ?_⟩
  · simp only [encodeQuery, if_pos (And.intro h1 h2)]
  · have hd := decodeNameF_encodeName name [1]
      (encodeName name ++ [1]).length h1 le_rfl
    unfold decode
    rw [hd]
  · simp only [encodeQuery, if_neg h3]

/-- Witness for C9: a concrete well-formed two-label name round-trips,
and the name with a 64-byte label is rejected. -/
theorem c9_roundtrip_and_invalid_witness :
    encodeQuery goodName 1 = .ok (encodeName goodName ++ [1]) ∧
    decode (encodeName goodName ++ [1]) = .ok { qname := goodName, qtype := 1 } ∧
    encodeQuery badName 1 = .error .InvalidName :=
  c9_roundtrip_and_invalid goodName badName (by decide) (by decide) (by decide)

end CNAssn2
